import Mathlib

/-!
Verification development for the chromium_manage repository
(src/chromium_manager.py, src/start.py).

The Python source is shallowly embedded: dictionaries become association
lists, the OS process table and the filesystem become explicit parameters
(`Nat → ProcBehavior`, `List (List String × Nat)`), and operations whose
behaviour depends on the outside world (psutil probes, HTTP requests,
archive contents) take that outside behaviour as an explicit argument.
Strings that must be computed on (lower-casing, substring tests, date
comparison) are handled at the `List Char` level because those operations
are evaluated inside proofs.
-/

/-! ## Common: association-list dictionaries -/

/-- Python `del d[k]` for a string-keyed dict, modelled on association
lists: every binding for `k` is dropped (a dict has at most one). -/
def removeKey (m : List (String × Nat)) (k : String) : List (String × Nat) :=
  m.filter (fun e => e.1 != k)

/-! ## Process lifecycle manager: `ChromiumManager.stop_instance`
(src/chromium_manager.py lines 1346-1383) -/

/-- Behaviour of the OS process with a given pid as seen by the psutil
calls inside `stop_instance`: `psutil.Process(pid)`/`terminate` may raise
`NoSuchProcess`, the graceful `terminate`+`wait(5)` may succeed, the
escalation `kill`+`wait(2)` may succeed or time out, and any psutil call
may raise `AccessDenied` or another exception. -/
inductive ProcBehavior
  | noSuchProcess
  | gracefulExit
  | killedAfterTimeout
  | killTimesOut
  | accessDenied
  | otherError
deriving DecidableEq

/-- The observable outcome of one `stop_instance` call: the warning dialog
for a non-running instance, the success paths (normal termination, and the
`except psutil.NoSuchProcess` cleanup path), and the two error dialogs. -/
inductive StopOutcome
  | rejectedNotRunning
  | stoppedOk
  | stoppedAlreadyGone
  | errorAccessDenied
  | errorOther
deriving DecidableEq

/-- An outcome is an error when `stop_instance` shows a critical error
dialog (`except psutil.AccessDenied` / `except Exception`). -/
def StopOutcome.isError : StopOutcome → Bool
  | .errorAccessDenied => true
  | .errorOther => true
  | _ => false

/-- `ChromiumManager.stop_instance` (lines 1346-1383). `world pid` is what
the psutil calls on that pid do. Returns the new `running_instances` table
and the reported outcome:
* name not in `running_instances`: warning dialog, table unchanged;
* `NoSuchProcess`: entry deleted, treated as a successful stop;
* graceful termination or kill-after-timeout: entry deleted, success;
* kill escalation also times out: the second `wait(timeout=2)` raises
  `TimeoutExpired`, caught by `except Exception`, entry kept;
* `AccessDenied` / other exception: error dialog, entry kept. -/
def stop_instance (world : Nat → ProcBehavior) (running : List (String × Nat))
    (name : String) : List (String × Nat) × StopOutcome :=
  match running.lookup name with
  | none => (running, .rejectedNotRunning)
  | some pid =>
    match world pid with
    | .noSuchProcess => (removeKey running name, .stoppedAlreadyGone)
    | .gracefulExit => (removeKey running name, .stoppedOk)
    | .killedAfterTimeout => (removeKey running name, .stoppedOk)
    | .killTimesOut => (running, .errorOther)
    | .accessDenied => (running, .errorAccessDenied)
    | .otherError => (running, .errorOther)

/-! ## Process lifecycle manager: `ChromiumManager.update_process_status`
(src/chromium_manager.py lines 1441-1470) -/

/-- What probing one pid inside `update_process_status` observes:
`psutil.Process(pid)` plus `is_running()` / `status()`, which may raise
`NoSuchProcess`, `AccessDenied`, or another exception. -/
inductive ProbeResult
  | alive
  | notRunning
  | zombie
  | noSuchProcess
  | accessDenied
  | probeError
deriving DecidableEq

/-- A probe result puts the instance on the `dead_instances` list exactly
when the process does not exist, `is_running()` is false, or the status is
`psutil.STATUS_ZOMBIE`; `AccessDenied` and other probe exceptions hit a
`continue` and keep the entry. -/
def ProbeResult.isDead : ProbeResult → Bool
  | .notRunning => true
  | .zombie => true
  | .noSuchProcess => true
  | _ => false

/-- `ChromiumManager.update_process_status` (lines 1441-1470): collect the
names whose probe is dead, then delete each collected name from
`running_instances`. -/
def update_process_status (world : Nat → ProbeResult)
    (running : List (String × Nat)) : List (String × Nat) :=
  let dead := (running.filter (fun e => (world e.2).isDead)).map Prod.fst
  running.filter (fun e => !(decide (e.1 ∈ dead)))

/-! ## Theorems for claims C1 and C2 -/

/-- C1: stopping an instance whose recorded pid no longer exists
(`psutil.NoSuchProcess`) deletes its `running_instances` entry and reports
a non-error (successful) outcome, while stopping a name that is absent
from `running_instances` is rejected with a warning and leaves the table
unchanged. -/
theorem stop_instance_dead_or_missing (world : Nat → ProcBehavior)
    (running : List (String × Nat)) (name : String) :
    (∀ pid, running.lookup name = some pid →
      world pid = ProcBehavior.noSuchProcess →
      stop_instance world running name =
        (removeKey running name, StopOutcome.stoppedAlreadyGone) ∧
      StopOutcome.isError StopOutcome.stoppedAlreadyGone = false) ∧
    (running.lookup name = none →
      stop_instance world running name = (running, StopOutcome.rejectedNotRunning)) := by
  constructor
  · intro pid h1 h2
    refine ⟨?_, rfl⟩
    simp [stop_instance, h1, h2]
  · intro h
    simp [stop_instance, h]

def stopWorld0 : Nat → ProcBehavior := fun pid =>
  if pid = 7 then ProcBehavior.noSuchProcess else ProcBehavior.gracefulExit

def running0 : List (String × Nat) := [("Instance 1", 7), ("Instance 2", 8)]

/-- Witness for C1 at a concrete table: pid 7 of "Instance 1" is gone, so
stop deletes the entry and succeeds; "Instance 9" is not running, so stop
is rejected and the table is unchanged. -/
theorem stop_instance_dead_or_missing_witness :
    stop_instance stopWorld0 running0 "Instance 1" =
      ([("Instance 2", 8)], StopOutcome.stoppedAlreadyGone) ∧
    StopOutcome.isError StopOutcome.stoppedAlreadyGone = false ∧
    stop_instance stopWorld0 running0 "Instance 9" =
      (running0, StopOutcome.rejectedNotRunning) := by
  have h := stop_instance_dead_or_missing stopWorld0 running0 "Instance 1"
  have h9 := stop_instance_dead_or_missing stopWorld0 running0 "Instance 9"
  have ha := h.1 7 (by decide) (by decide)
  refine ⟨?_, ha.2, h9.2 (by decide)⟩
  rw [ha.1]
  decide

/-- C2: one `update_process_status` pass removes exactly the entries whose
probe says dead (process gone, not running, or zombie) and keeps every
other entry, including those whose probe raises `AccessDenied` or another
exception — i.e. the pass equals a filter by per-entry liveness. -/
theorem update_process_status_removes_exactly_dead (world : Nat → ProbeResult)
    (running : List (String × Nat)) (hnd : (running.map Prod.fst).Nodup) :
    update_process_status world running =
      running.filter (fun e => !(world e.2).isDead) := by
  unfold update_process_status
  apply List.filter_congr
  intro e he
  congr 1
  by_cases hd : (world e.2).isDead = true
  · rw [hd]
    apply decide_eq_true
    exact List.mem_map_of_mem Prod.fst (List.mem_filter.2 ⟨he, hd⟩)
  · rw [Bool.not_eq_true] at hd
    rw [hd]
    apply decide_eq_false
    intro hmem
    rcases List.mem_map.1 hmem with ⟨e', he', hfst⟩
    rcases List.mem_filter.1 he' with ⟨he'r, hdead⟩
    have : e' = e := List.inj_on_of_nodup_map hnd he'r he hfst
    rw [this] at hdead
    rw [hd] at hdead
    exact Bool.false_ne_true hdead

def probeWorld0 : Nat → ProbeResult := fun pid =>
  if pid = 1 then ProbeResult.alive
  else if pid = 2 then ProbeResult.noSuchProcess
  else if pid = 3 then ProbeResult.zombie
  else if pid = 4 then ProbeResult.accessDenied
  else ProbeResult.notRunning

def runningMix : List (String × Nat) :=
  [("a", 1), ("b", 2), ("c", 3), ("d", 4), ("e", 5)]

/-- Witness for C2 on a concrete table: the gone (pid 2), zombie (pid 3)
and not-running (pid 5) entries are removed; the alive (pid 1) and
access-denied (pid 4) entries survive. -/
theorem update_process_status_removes_exactly_dead_witness :
    update_process_status probeWorld0 runningMix = [("a", 1), ("d", 4)] := by
  have h := update_process_status_removes_exactly_dead probeWorld0 runningMix (by decide)
  rw [h]
  decide

/-! ## Download coordinator: `DownloadThread.run`
(src/chromium_manager.py lines 79-120).

Progress/status signals are not modelled (the claim is about outcome
events and the destination file); a chunk therefore carries only its
size.  The cooperative cancellation flag `_is_cancelled` is modelled as
`cancelAt`: the loop iteration index from which on the flag reads true. -/

/-- One iteration of `for chunk in response.iter_content(...)`:
either a chunk arrives and `f.write` succeeds, or a chunk arrives and
`f.write` raises `IOError`, or pulling the next chunk raises a
`requests.exceptions.RequestException` mid-stream. -/
inductive DlEvent
  | chunk (size : Nat)
  | chunkWriteFails (size : Nat)
  | netDrop
deriving DecidableEq

/-- The argument of the single `finished` signal: `finished(True, "")` or
`finished(False, msg)` for cancellation, network error, or write error. -/
inductive DlOutcome
  | success
  | cancelled
  | netFail
  | ioFail
deriving DecidableEq

/-- Result of one `run` invocation: the list of `finished` signals emitted
and whether a file is present at `self.filepath` afterwards. -/
structure DlResult where
  outcomes : List DlOutcome
  fileAtDest : Bool
deriving DecidableEq

/-- Whether `self._is_cancelled` reads true at loop iteration `i`. -/
def cancelSeen (cancelAt : Option Nat) (i : Nat) : Bool :=
  match cancelAt with
  | none => false
  | some j => decide (j ≤ i)

/-- The download loop (lines 92-106).  Per iteration: pulling the next
chunk may raise a network error (exception propagates, the written file
stays on disk); then the cancellation flag is checked (file removed,
`finished(False, "下载已取消")` emitted); then the chunk is written, where
`IOError` again leaves the partial file behind.  When the stream ends
normally, `finished(True, "")` is emitted and the complete file remains. -/
def downloadLoop (cancelAt : Option Nat) : List DlEvent → Nat → DlResult
  | [], _ => ⟨[.success], true⟩
  | e :: rest, i =>
    match e with
    | .netDrop => ⟨[.netFail], true⟩
    | .chunk _ =>
      if cancelSeen cancelAt i then ⟨[.cancelled], false⟩
      else downloadLoop cancelAt rest (i + 1)
    | .chunkWriteFails _ =>
      if cancelSeen cancelAt i then ⟨[.cancelled], false⟩
      else ⟨[.ioFail], true⟩

/-- `DownloadThread.run` (lines 79-120): `requestOk` is whether
`requests.get` + `raise_for_status` succeed, `openOk` whether
`open(self.filepath, "wb")` succeeds (a failed open creates no file);
then the chunk loop runs with the iteration counter at 0. -/
def DownloadThread.run (requestOk openOk : Bool) (events : List DlEvent)
    (cancelAt : Option Nat) : DlResult :=
  if !requestOk then ⟨[.netFail], false⟩
  else if !openOk then ⟨[.ioFail], false⟩
  else downloadLoop cancelAt events 0

theorem downloadLoop_one_outcome (cancelAt : Option Nat) (events : List DlEvent) :
    ∀ i, (downloadLoop cancelAt events i).outcomes.length = 1 := by
  induction events with
  | nil => intro i; rfl
  | cons e rest ih =>
    intro i
    cases e with
    | chunk n =>
      by_cases h : cancelSeen cancelAt i = true
      · simp [downloadLoop, h]
      · rw [Bool.not_eq_true] at h
        simp only [downloadLoop, h, Bool.false_eq_true, if_false]
        exact ih (i + 1)
    | chunkWriteFails n =>
      by_cases h : cancelSeen cancelAt i = true
      · simp [downloadLoop, h]
      · rw [Bool.not_eq_true] at h
        simp [downloadLoop, h]
    | netDrop => rfl

theorem downloadLoop_cancelled_no_file (cancelAt : Option Nat) (events : List DlEvent) :
    ∀ i, (downloadLoop cancelAt events i).outcomes = [DlOutcome.cancelled] →
      (downloadLoop cancelAt events i).fileAtDest = false := by
  induction events with
  | nil => intro i h; exact absurd (List.head_eq_of_cons_eq h) (by decide)
  | cons e rest ih =>
    intro i h
    cases e with
    | chunk n =>
      by_cases hc : cancelSeen cancelAt i = true
      · simp [downloadLoop, hc]
      · rw [Bool.not_eq_true] at hc
        simp only [downloadLoop, hc, Bool.false_eq_true, if_false] at h ⊢
        exact ih (i + 1) h
    | chunkWriteFails n =>
      by_cases hc : cancelSeen cancelAt i = true
      · simp [downloadLoop, hc]
      · rw [Bool.not_eq_true] at hc
        simp only [downloadLoop, hc, Bool.false_eq_true, if_false] at h
        exact absurd (List.head_eq_of_cons_eq h) (by decide)
    | netDrop =>
      exact absurd (List.head_eq_of_cons_eq h) (by decide)

theorem downloadLoop_cancel_mid_transfer (j : Nat) (events : List DlEvent)
    (hall : ∀ e ∈ events, ∃ n, e = DlEvent.chunk n) :
    ∀ i, j < i + events.length → i ≤ j →
      downloadLoop (some j) events i = ⟨[DlOutcome.cancelled], false⟩ := by
  induction events with
  | nil =>
    intro i hlt hle
    exfalso
    simp only [List.length_nil, Nat.add_zero] at hlt
    omega
  | cons e rest ih =>
    intro i hlt hle
    rcases hall e (List.mem_cons_self e rest) with ⟨n, rfl⟩
    by_cases hsee : cancelSeen (some j) i = true
    · simp [downloadLoop, hsee]
    · rw [Bool.not_eq_true] at hsee
      simp only [downloadLoop, hsee, Bool.false_eq_true, if_false]
      have hji : ¬ j ≤ i := by
        simpa [cancelSeen, decide_eq_false_iff_not] using hsee
      refine ih (fun e he => hall e (List.mem_cons_of_mem _ he)) (i + 1) ?_ ?_
      · simp only [List.length_cons] at hlt
        omega
      · omega

/-- Counterexample to C3 as stated: a network drop after the first chunk
has been written is a non-success outcome, yet the partial file remains at
the destination (`except requests.exceptions.RequestException` does not
delete it). -/
theorem download_nonsuccess_partial_file_counterexample :
    (DownloadThread.run true true [DlEvent.chunk 8192, DlEvent.netDrop] none).outcomes =
      [DlOutcome.netFail] ∧
    (DownloadThread.run true true [DlEvent.chunk 8192, DlEvent.netDrop] none).fileAtDest = true := by
  decide

/-- C3 amended: every invocation emits exactly one outcome event, a
cancelled outcome always comes with the partial file deleted, cancellation
mid-transfer (flag set before the chunks run out) yields the cancelled
outcome — never success — with no file left, and a failure before the
destination file is created leaves no file; but a network or write failure
after writing has begun may leave a partial file behind. -/
theorem download_outcome_amended (requestOk openOk : Bool) (events : List DlEvent)
    (cancelAt : Option Nat) :
    ((DownloadThread.run requestOk openOk events cancelAt).outcomes.length = 1) ∧
    ((DownloadThread.run requestOk openOk events cancelAt).outcomes = [DlOutcome.cancelled] →
      (DownloadThread.run requestOk openOk events cancelAt).fileAtDest = false) ∧
    (∀ j, requestOk = true → openOk = true → cancelAt = some j →
      (∀ e ∈ events, ∃ n, e = DlEvent.chunk n) → j < events.length →
      DownloadThread.run requestOk openOk events cancelAt =
        ⟨[DlOutcome.cancelled], false⟩) ∧
    (requestOk = false ∨ openOk = false →
      (DownloadThread.run requestOk openOk events cancelAt).fileAtDest = false) := by
  refine ⟨?_, ?_, ?_, ?_⟩
  · cases requestOk with
    | false => rfl
    | true =>
      cases openOk with
      | false => rfl
      | true => exact downloadLoop_one_outcome cancelAt events 0
  · cases requestOk with
    | false => intro h; exact absurd (List.head_eq_of_cons_eq h) (by decide)
    | true =>
      cases openOk with
      | false => intro h; exact absurd (List.head_eq_of_cons_eq h) (by decide)
      | true => exact downloadLoop_cancelled_no_file cancelAt events 0
  · rintro j rfl rfl rfl hall hlt
    show downloadLoop (some j) events 0 = ⟨[DlOutcome.cancelled], false⟩
    exact downloadLoop_cancel_mid_transfer j events hall 0 (by omega) (Nat.zero_le j)
  · rintro (rfl | rfl)
    · rfl
    · cases requestOk <;> rfl

/-- Witness for the amended C3: three chunks with cancellation flagged
from iteration 1 produce exactly the cancelled outcome with the partial
file removed, and a failing initial request leaves no file. -/
theorem download_outcome_amended_witness :
    DownloadThread.run true true [DlEvent.chunk 10, DlEvent.chunk 20, DlEvent.chunk 30]
        (some 1) = ⟨[DlOutcome.cancelled], false⟩ ∧
    (DownloadThread.run false true [DlEvent.chunk 10] none).fileAtDest = false := by
  have h := download_outcome_amended true true
    [DlEvent.chunk 10, DlEvent.chunk 20, DlEvent.chunk 30] (some 1)
  have h2 := download_outcome_amended false true [DlEvent.chunk 10] none
  refine ⟨h.2.2.1 1 rfl rfl rfl ?_ (by decide), h2.2.2.2 (Or.inl rfl)⟩
  intro e he
  fin_cases he
  · exact ⟨10, rfl⟩
  · exact ⟨20, rfl⟩
  · exact ⟨30, rfl⟩

/-! ## Archive installer: `FileExtractor.extract_zip` / `extract_dmg`
(src/chromium_manager.py lines 126-176 and 179-234).

Filesystem directories are modelled as lists of relative paths, a path
being its list of components (mirroring `os.path.join`). -/

/-- The fixed ordered candidate list searched for `chrome.exe` after a zip
install (lines 159-163), relative to the version directory. -/
def zipExeCandidates : List (List String) :=
  [["chrome.exe"], ["Chromium", "chrome.exe"], ["chrome-win", "chrome.exe"]]

/-- The executable location inside the copied bundle after a dmg install
(line 216), relative to the version directory. -/
def dmgExeRel : List String := ["Chromium.app", "Contents", "MacOS", "Chromium"]

/-- Outcome of one install: the contents of the version directory
afterwards and the executable path handed to `update_version_config`
(`none` on failure). -/
structure InstallResult where
  dirContents : List (List String)
  exeFound : Option (List String)
deriving DecidableEq

/-- `FileExtractor.extract_zip` (lines 126-176): the archive is unpacked
into a scratch directory; the version directory is `shutil.rmtree`-d if it
exists and recreated, so the prior contents (`_priorDir`) are wholly
discarded; the scratch contents are copied in; then the first existing
candidate path wins. -/
def extract_zip (archiveContents : List (List String))
    (_priorDir : List (List String)) : InstallResult :=
  let versionDir := archiveContents
  ⟨versionDir, zipExeCandidates.find? (fun c => decide (c ∈ versionDir))⟩

/-- `FileExtractor.extract_dmg` (lines 179-234): the version directory is
created with `os.makedirs(..., exist_ok=True)` — its prior contents are
NOT deleted.  `appFound` is the `Chromium.app` payload discovered on the
mounted image (`none` covers mount failure and a missing bundle, where the
directory is left as it was).  Only the `Chromium.app` subtree is
`rmtree`-d and replaced; the executable must then exist at the fixed
relative path inside the bundle. -/
def extract_dmg (appFound : Option (List (List String)))
    (priorDir : List (List String)) : InstallResult :=
  match appFound with
  | none => ⟨priorDir, none⟩
  | some appFiles =>
    let kept := priorDir.filter (fun p => p.head? != some "Chromium.app")
    let versionDir := kept ++ appFiles.map (fun f => "Chromium.app" :: f)
    ⟨versionDir, if dmgExeRel ∈ versionDir then some dmgExeRel else none⟩

/-- Counterexample to C4 as stated: for the dmg kind the prior contents of
the version directory are not deleted — a pre-existing `stale.txt`
survives a successful dmg install. -/
theorem dmg_prior_contents_counterexample :
    (extract_dmg (some [["Contents", "MacOS", "Chromium"]]) [["stale.txt"]]).exeFound =
      some dmgExeRel ∧
    ["stale.txt"] ∈
      (extract_dmg (some [["Contents", "MacOS", "Chromium"]]) [["stale.txt"]]).dirContents := by
  decide

theorem filter_map_cons_app (appFiles : List (List String)) :
    (appFiles.map (fun f => "Chromium.app" :: f)).filter
      (fun p => p.head? != some "Chromium.app") = [] := by
  induction appFiles with
  | nil => rfl
  | cons f rest ih =>
    simp only [List.map_cons, List.filter_cons, List.head?_cons, bne_self_eq_false,
      Bool.false_eq_true, if_false]
    exact ih

/-- C4 amended: a zip install wholly replaces the version directory (its
result never depends on the prior contents), while a dmg install replaces
only the `Chromium.app` bundle and keeps every other prior file; for both
kinds installing the same archive twice is idempotent, so the resulting
directory contents and executable path are identical. -/
theorem install_idempotent_amended (archiveContents : List (List String))
    (appFiles : List (List String)) (priorDir : List (List String)) :
    (extract_zip archiveContents priorDir).dirContents = archiveContents ∧
    extract_zip archiveContents (extract_zip archiveContents priorDir).dirContents =
      extract_zip archiveContents priorDir ∧
    (extract_dmg (some appFiles) priorDir).dirContents.filter
        (fun p => p.head? != some "Chromium.app") =
      priorDir.filter (fun p => p.head? != some "Chromium.app") ∧
    extract_dmg (some appFiles) ((extract_dmg (some appFiles) priorDir).dirContents) =
      extract_dmg (some appFiles) priorDir := by
  have hfilter : (extract_dmg (some appFiles) priorDir).dirContents.filter
      (fun p => p.head? != some "Chromium.app") =
      priorDir.filter (fun p => p.head? != some "Chromium.app") := by
    show ((priorDir.filter (fun p => p.head? != some "Chromium.app")) ++
        appFiles.map (fun f => "Chromium.app" :: f)).filter
        (fun p => p.head? != some "Chromium.app") = _
    rw [List.filter_append, List.filter_filter, filter_map_cons_app, List.append_nil]
    apply List.filter_congr
    intro p _
    exact Bool.and_self _
  refine ⟨rfl, rfl, hfilter, ?_⟩
  show InstallResult.mk _ _ = InstallResult.mk _ _
  rw [hfilter]

/-! ## Release resolver: `ChromiumManager.fetch_available_versions`
(src/chromium_manager.py lines 814-852).

Asset-name matching works on lower-cased character lists, mirroring
`asset['name'].lower()` with Python's `in` and `.endswith`. -/

/-- `s.lower()` as a character list. -/
def lowerChars (s : String) : List Char := s.data.map Char.toLower

/-- Python `needle in hay` on character lists. -/
def pyIn (needle hay : List Char) : Bool :=
  (List.range (hay.length + 1)).any (fun i => needle.isPrefixOf (hay.drop i))

/-- Python `hay.endswith(suf)` on character lists. -/
def endsWithChars (suf hay : List Char) : Bool :=
  suf.reverse.isPrefixOf hay.reverse

/-- One element of a release's `assets` array in the GitHub feed. -/
structure Asset where
  name : String
  browser_download_url : String
  size : Nat
deriving DecidableEq

/-- One release object of the GitHub feed. -/
structure Release where
  tag_name : String
  published_at : String
  assets : List Asset
deriving DecidableEq

/-- One entry of `self.available_versions`.  `sizeBytes` keeps the raw
asset size (the source stores the rounded-MB float for display only,
which is not modelled); `published_at` is the first 10 characters of the
release date; `filepath` is `download_dir` joined with the asset name. -/
structure VersionEntry where
  tag_name : String
  name : String
  download_url : String
  sizeBytes : Nat
  published_at : List Char
  filepath : List String
deriving DecidableEq

/-- The platform filter (lines 827-829): on Windows the lower-cased asset
name must contain "windows" and end in ".zip"; on macOS it must contain
"macos" and end in ".dmg". -/
def assetMatches (is_windows is_macos : Bool) (assetName : String) : Bool :=
  let n := lowerChars assetName
  (is_windows && pyIn "windows".data n && endsWithChars ".zip".data n) ||
  (is_macos && pyIn "macos".data n && endsWithChars ".dmg".data n)

/-- The entries appended for one release (lines 824-838): one per matching
asset, in asset order. -/
def releaseEntries (is_windows is_macos : Bool) (download_dir : List String)
    (r : Release) : List VersionEntry :=
  (r.assets.filter (fun a => assetMatches is_windows is_macos a.name)).map (fun a =>
    { tag_name := r.tag_name, name := a.name, download_url := a.browser_download_url,
      sizeBytes := a.size, published_at := r.published_at.data.take 10,
      filepath := download_dir ++ [a.name] })

/-- Lexicographic date comparison on the `published_at` strings, the sort
key of line 841. -/
def dateLe : List Char → List Char → Bool
  | [], _ => true
  | _ :: _, [] => false
  | a :: as, b :: bs => if a = b then dateLe as bs else decide (a < b)

/-- `a` may come before `b` in the descending-by-date order
(`sort(key=..., reverse=True)`, line 841). -/
def entriesLe (a b : VersionEntry) : Prop := dateLe b.published_at a.published_at = true

instance : DecidableRel entriesLe := fun _ _ => instDecidableEqBool _ _

theorem dateLe_total (a : List Char) : ∀ b, dateLe a b = true ∨ dateLe b a = true := by
  induction a with
  | nil => intro b; left; cases b <;> rfl
  | cons x xs ih =>
    intro b
    cases b with
    | nil => right; rfl
    | cons y ys =>
      by_cases hxy : x = y
      · subst hxy
        rcases ih ys with h | h
        · left; simpa [dateLe] using h
        · right; simpa [dateLe] using h
      · rcases lt_trichotomy x y with h | h | h
        · left; simp [dateLe, hxy, h]
        · exact absurd h hxy
        · right; simp [dateLe, Ne.symm hxy, h]

theorem dateLe_trans (a : List Char) : ∀ b c, dateLe a b = true → dateLe b c = true →
    dateLe a c = true := by
  induction a with
  | nil => intro b c _ _; cases c <;> rfl
  | cons x xs ih =>
    intro b c hab hbc
    cases b with
    | nil => exact absurd hab (by simp [dateLe])
    | cons y ys =>
      cases c with
      | nil => exact absurd hbc (by simp [dateLe])
      | cons z zs =>
        by_cases hxy : x = y
        · subst hxy
          by_cases hyz : x = z
          · subst hyz
            have h1 : dateLe xs ys = true := by simpa [dateLe] using hab
            have h2 : dateLe ys zs = true := by simpa [dateLe] using hbc
            simpa [dateLe] using ih ys zs h1 h2
          · have h2 : x < z := by simpa [dateLe, hyz] using hbc
            simp [dateLe, hyz, h2]
        · have h1 : x < y := by simpa [dateLe, hxy] using hab
          by_cases hyz : y = z
          · subst hyz
            simp [dateLe, hxy, h1]
          · have h2 : y < z := by simpa [dateLe, hyz] using hbc
            have hxz : x < z := lt_trans h1 h2
            simp [dateLe, ne_of_lt hxz, hxz]

instance : IsTotal VersionEntry entriesLe :=
  ⟨fun a b => (dateLe_total b.published_at a.published_at).elim Or.inl Or.inr⟩

instance : IsTrans VersionEntry entriesLe :=
  ⟨fun _ b _ hab hbc => dateLe_trans _ b.published_at _ hbc hab⟩

/-- The successful branch of `fetch_available_versions` (lines 821-841):
accumulate one entry per platform-matching asset of every release, then
sort descending by (truncated) publication date.  Python's stable Timsort
is modelled by insertion sort; no claim depends on the tie order. -/
def fetch_ok (is_windows is_macos : Bool) (download_dir : List String)
    (releases : List Release) : List VersionEntry :=
  ((releases.map (releaseEntries is_windows is_macos download_dir)).flatten).insertionSort
    entriesLe

/-- `ChromiumManager.fetch_available_versions` (lines 814-852): the
request either fails (the `except` branches only log — `available_versions`
keeps its prior value — and the flag records that a non-fatal error was
signalled) or delivers the release list, which replaces the prior state.
Returns the new `available_versions` and the error flag. -/
def fetch_available_versions (resp : Except Unit (List Release))
    (is_windows is_macos : Bool) (download_dir : List String)
    (prior : List VersionEntry) : List VersionEntry × Bool :=
  match resp with
  | .error _ => (prior, true)
  | .ok releases => (fetch_ok is_windows is_macos download_dir releases, false)

def demoRelease : Release :=
  { tag_name := "v10", published_at := "2024-05-01T00:00:00Z",
    assets := [{ name := "chromium-v10-windows.zip", browser_download_url := "u1",
                 size := 52428800 },
               { name := "chromium-v10-macos.dmg", browser_download_url := "u2",
                 size := 73400320 }] }

def demoWinEntry : VersionEntry :=
  { tag_name := "v10", name := "chromium-v10-windows.zip", download_url := "u1",
    sizeBytes := 52428800, published_at := "2024-05-01".data,
    filepath := ["DownLoad", "chromium-v10-windows.zip"] }

/-- C5: a successful fetch yields one entry per asset matching the host
platform's keyword and extension (case-insensitively) — the result is a
permutation of the per-release matching-asset entries — sorted descending
by published date; and on the two-asset demo feed with host platform
windows the result is exactly the one entry for chromium-v10-windows.zip. -/
theorem fetch_available_versions_platform_sorted :
    (∀ (is_windows is_macos : Bool) (download_dir : List String)
      (releases : List Release),
      (fetch_ok is_windows is_macos download_dir releases).Sorted entriesLe ∧
      (fetch_ok is_windows is_macos download_dir releases).Perm
        ((releases.map (releaseEntries is_windows is_macos download_dir)).flatten)) ∧
    fetch_ok true false ["DownLoad"] [demoRelease] = [demoWinEntry] :=
  ⟨fun _ _ _ _ => ⟨List.sorted_insertionSort entriesLe _, List.perm_insertionSort entriesLe _⟩,
   by decide⟩

/-- Counterexample to C6 as stated: a network failure leaves the
previously fetched `available_versions` in place — the `except` branch
(lines 847-852) never clears the list, so it is not empty whenever it was
non-empty before. -/
theorem fetch_network_failure_counterexample :
    (fetch_available_versions (Except.error ()) true false ["DownLoad"] [demoWinEntry]).1 ≠
      [] := by decide

/-- C6 amended: on any network failure `fetch_available_versions` signals
a non-fatal error and leaves the available-versions list unchanged at its
prior value (hence empty only when it was already empty, e.g. on the first
fetch after startup). -/
theorem fetch_network_failure_amended (is_windows is_macos : Bool)
    (download_dir : List String) (prior : List VersionEntry) :
    fetch_available_versions (Except.error ()) is_windows is_macos download_dir prior =
      (prior, true) := rfl

/-! ## Launch commands: `ChromiumManager._build_chromium_command`
(src/chromium_manager.py lines 1310-1327) and
`VerifyFingerprintDialog.open_website` (lines 727-736). -/

/-- `_build_chromium_command`: executable, the three identity flags, the
proxy flag when `instance.get('proxy_server')` is truthy (a non-empty
string), then the three fixed flags. -/
def build_chromium_command (chromium_path fingerprint user_data_dir timezone
    proxy_server : String) : List String :=
  [chromium_path, "--fingerprint=" ++ fingerprint,
   "--user-data-dir=" ++ user_data_dir, "--timezone=" ++ timezone] ++
  (if proxy_server ≠ "" then ["--proxy-server=" ++ proxy_server] else []) ++
  ["--no-first-run", "--disable-default-apps", "--disable-background-mode"]

/-- The command built inside `VerifyFingerprintDialog.open_website`
(lines 728-734): executable, identity flags, optional proxy flag, then the
site URL appended — the three fixed flags of `_build_chromium_command` are
not added here. -/
def open_website_command (chromium_path fingerprint user_data_dir timezone
    proxy_server site_url : String) : List String :=
  [chromium_path, "--fingerprint=" ++ fingerprint,
   "--user-data-dir=" ++ user_data_dir, "--timezone=" ++ timezone] ++
  (if proxy_server ≠ "" then ["--proxy-server=" ++ proxy_server] else []) ++
  [site_url]

/-- Counterexample to C7 as stated: the verification flow does not produce
the launch vector with the URL appended — `open_website` omits
`--no-first-run`, `--disable-default-apps` and `--disable-background-mode`. -/
theorem verify_command_counterexample :
    open_website_command "/v1/chrome" "1000" "/tmp/d1" "UTC" ""
        "https://bot.sannysoft.com/" ≠
      build_chromium_command "/v1/chrome" "1000" "/tmp/d1" "UTC" "" ++
        ["https://bot.sannysoft.com/"] := by decide

/-- C7 amended: the launch vector is exactly [executable,
--fingerprint=..., --user-data-dir=..., --timezone=..., optional
--proxy-server=... when the proxy field is non-empty, --no-first-run,
--disable-default-apps, --disable-background-mode] in that order, and the
verification flow produces that vector with the three trailing fixed flags
removed and the target URL appended as the final positional argument. -/
theorem launch_command_amended (chromium_path fingerprint user_data_dir timezone
    proxy_server site_url : String) :
    build_chromium_command chromium_path fingerprint user_data_dir timezone
        proxy_server =
      [chromium_path, "--fingerprint=" ++ fingerprint,
       "--user-data-dir=" ++ user_data_dir, "--timezone=" ++ timezone] ++
      (if proxy_server ≠ "" then ["--proxy-server=" ++ proxy_server] else []) ++
      ["--no-first-run", "--disable-default-apps", "--disable-background-mode"] ∧
    open_website_command chromium_path fingerprint user_data_dir timezone
        proxy_server site_url =
      (build_chromium_command chromium_path fingerprint user_data_dir timezone
        proxy_server).take (if proxy_server ≠ "" then 5 else 4) ++ [site_url] := by
  refine ⟨rfl, ?_⟩
  by_cases hp : proxy_server = ""
  · simp only [build_chromium_command, open_website_command, hp, ne_eq,
      not_true_eq_false, if_false]
    rfl
  · simp only [build_chromium_command, open_website_command, ne_eq, hp,
      not_false_eq_true, if_true]
    rfl

/-! ## Persistence: `ChromiumManager.load_config`
(src/chromium_manager.py lines 898-928).

A YAML instance mapping becomes an association list of string keys to
scalar values; the persisted document becomes its two optional top-level
keys. -/

/-- A scalar stored in an instance mapping (the defaults use strings and
ints). -/
inductive CfgValue
  | s (v : String)
  | n (v : Int)
deriving DecidableEq

/-- One instance record of the persisted document, as a key-value dict. -/
abbrev InstDict := List (String × CfgValue)

/-- One entry of the top-level `versions` mapping, as written by
`update_version_config` (lines 1551-1563); `vtype` is the source key
`type` (a Lean keyword). -/
structure VersionRecord where
  path : List String
  vtype : String
  description : String
  last_updated : Nat
deriving DecidableEq

/-- `self.config`: the two top-level keys after `load_config` has ensured
both are present. -/
structure Config where
  instances : List InstDict
  versions : List (String × VersionRecord)
deriving DecidableEq

/-- What `yaml.safe_load` produced: the file was absent or the document
falsy (`self.config` keeps its initial `{'instances': []}` value), the
load raised (`_create_default_config` installs empty instances and
versions), or a mapping whose two top-level keys may each be absent. -/
inductive LoadedDoc
  | missingOrEmpty
  | malformed
  | parsed (instances : Option (List InstDict))
      (versions : Option (List (String × VersionRecord)))

/-- The compatibility loop of lines 913-919: for each default field in
order, insert it if the instance lacks the key (a dict insert of a fresh
key appends), never overwriting a present key. -/
def patchInst : InstDict → InstDict → InstDict
  | [], inst => inst
  | kv :: rest, inst =>
    patchInst rest (if (inst.lookup kv.1).isSome then inst else inst ++ [kv])

/-- `ChromiumManager.load_config` (lines 898-928).  `default_fields` is
the dict computed by `InstanceUtils.get_default_instance_values([], {},
self.is_windows)` (lines 432-470); the patching behaviour is proved for an
arbitrary default dict.  A missing `instances` or `versions` key is
initialized empty; every loaded instance is patched with the defaults it
lacks. -/
def load_config (doc : LoadedDoc) (default_fields : InstDict) : Config :=
  match doc with
  | .missingOrEmpty => { instances := [], versions := [] }
  | .malformed => { instances := [], versions := [] }
  | .parsed insts vers =>
      { instances := (insts.getD []).map (patchInst default_fields),
        versions := vers.getD [] }

theorem lookup_append_of_isSome {β : Type} (l₁ l₂ : List (String × β)) (k : String)
    (h : (l₁.lookup k).isSome) : (l₁ ++ l₂).lookup k = l₁.lookup k := by
  induction l₁ with
  | nil => simp at h
  | cons e t ih =>
    obtain ⟨k', v⟩ := e
    cases hbeq : (k == k') with
    | true => simp [List.lookup, hbeq]
    | false =>
      simp only [List.lookup, hbeq] at h
      simp only [List.cons_append, List.lookup, hbeq]
      exact ih h

theorem lookup_append_of_none {β : Type} (l₁ l₂ : List (String × β)) (k : String)
    (h : l₁.lookup k = none) : (l₁ ++ l₂).lookup k = l₂.lookup k := by
  induction l₁ with
  | nil => rfl
  | cons e t ih =>
    obtain ⟨k', v⟩ := e
    cases hbeq : (k == k') with
    | true => simp [List.lookup, hbeq] at h
    | false =>
      simp only [List.lookup, hbeq] at h
      simp only [List.cons_append, List.lookup, hbeq]
      exact ih h

theorem patchInst_lookup_present (defaults : InstDict) :
    ∀ inst k, (inst.lookup k).isSome →
      (patchInst defaults inst).lookup k = inst.lookup k := by
  induction defaults with
  | nil => intro inst k _; rfl
  | cons kv rest ih =>
    intro inst k h
    by_cases hc : ((inst.lookup kv.1).isSome = true)
    · simp only [patchInst]
      rw [if_pos hc]
      exact ih inst k h
    · simp only [patchInst]
      rw [if_neg hc]
      have hsome : ((inst ++ [kv]).lookup k).isSome := by
        rw [lookup_append_of_isSome inst [kv] k h]
        exact h
      rw [ih _ k hsome]
      exact lookup_append_of_isSome inst [kv] k h

theorem patchInst_lookup_missing (defaults : InstDict) :
    ∀ inst k, inst.lookup k = none →
      (patchInst defaults inst).lookup k = defaults.lookup k := by
  induction defaults with
  | nil => intro inst k h; simpa [patchInst] using h
  | cons kv rest ih =>
    intro inst k h
    obtain ⟨k', v⟩ := kv
    by_cases hc : ((inst.lookup k').isSome = true)
    · have hne : (k == k') = false := by
        cases hbeq : (k == k') with
        | true =>
          have hk : k = k' := by simpa using hbeq
          rw [hk] at h
          rw [h] at hc
          simp at hc
        | false => rfl
      simp only [patchInst]
      rw [if_pos hc]
      rw [ih inst k h]
      simp [List.lookup, hne]
    · simp only [patchInst]
      rw [if_neg hc]
      cases hbeq : (k == k') with
      | true =>
        have hk : k = k' := by simpa using hbeq
        subst hk
        have hacc : (inst ++ [(k, v)]).lookup k = some v := by
          rw [lookup_append_of_none inst _ k h]
          simp [List.lookup]
        have hsome : ((inst ++ [(k, v)]).lookup k).isSome := by
          rw [hacc]; rfl
        rw [patchInst_lookup_present rest _ k hsome, hacc]
        simp [List.lookup]
      | false =>
        have hnone : (inst ++ [(k', v)]).lookup k = none := by
          rw [lookup_append_of_none inst _ k h]
          simp [List.lookup, hbeq]
        rw [ih _ k hnone]
        simp [List.lookup, hbeq]

/-- C8: `load_config` never errors on missing top-level keys — a missing
`instances` key loads as the empty list, a missing `versions` key (also
when the whole document is absent or malformed) loads as the empty
mapping — and every loaded instance is patched with each default field it
lacks while every field it already has keeps its loaded value. -/
theorem load_config_missing_keys_and_patch (default_fields : InstDict) :
    (∀ vers, (load_config (LoadedDoc.parsed none vers) default_fields).instances = []) ∧
    (∀ insts, (load_config (LoadedDoc.parsed insts none) default_fields).versions = []) ∧
    (load_config LoadedDoc.missingOrEmpty default_fields =
      { instances := [], versions := [] }) ∧
    (load_config LoadedDoc.malformed default_fields =
      { instances := [], versions := [] }) ∧
    (∀ insts vers, (load_config (LoadedDoc.parsed (some insts) vers)
        default_fields).instances = insts.map (patchInst default_fields)) ∧
    (∀ inst k, (inst.lookup k).isSome →
      (patchInst default_fields inst).lookup k = inst.lookup k) ∧
    (∀ inst k, inst.lookup k = none →
      (patchInst default_fields inst).lookup k = default_fields.lookup k) := by
  refine ⟨fun _ => rfl, fun insts => ?_, rfl, rfl, fun _ _ => rfl,
    patchInst_lookup_present default_fields, patchInst_lookup_missing default_fields⟩
  cases insts <;> rfl

def demoDefaults : InstDict :=
  [("timezone", CfgValue.s "Asia/Shanghai"), ("proxy_server", CfgValue.s ""),
   ("hardware_concurrency", CfgValue.n 12), ("device_memory", CfgValue.n 8)]

def demoLoadedInst : InstDict :=
  [("name", CfgValue.s "Instance 1"), ("timezone", CfgValue.s "UTC")]

/-- Witness for C8 on a concrete document: a doc with one instance and no
`versions` key loads with empty versions; the loaded `timezone` survives
the patch while the missing `device_memory` receives its default. -/
theorem load_config_missing_keys_and_patch_witness :
    (load_config (LoadedDoc.parsed (some [demoLoadedInst]) none)
      demoDefaults).versions = [] ∧
    (patchInst demoDefaults demoLoadedInst).lookup "timezone" =
      some (CfgValue.s "UTC") ∧
    (patchInst demoDefaults demoLoadedInst).lookup "device_memory" =
      some (CfgValue.n 8) := by
  have h := load_config_missing_keys_and_patch demoDefaults
  refine ⟨h.2.1 (some [demoLoadedInst]), ?_, ?_⟩
  · rw [h.2.2.2.2.2.1 demoLoadedInst "timezone" (by decide)]
    decide
  · rw [h.2.2.2.2.2.2 demoLoadedInst "device_memory" (by decide)]
    decide

/-! ## Instance creation: `AddInstanceDialog.validate_and_accept`
(src/chromium_manager.py lines 594-633) and `ChromiumManager.add_instance`
(lines 1158-1184). -/

/-- The dialog fields that `validate_and_accept` inspects plus the name
stored into the registry; the remaining environment fields of
`get_instance_data` are opaque pass-through and carry no validation. -/
structure DialogData where
  name : String
  fingerprint : String
  user_data_dir : String
  timezone : String
  proxy_server : String
  chromium_version : String
  hardware_concurrency_text : String
  device_memory_text : String
deriving DecidableEq

/-- Python `bool(s.strip())`: true when some character is not whitespace. -/
def nonBlank (s : String) : Bool := !(s.data.all Char.isWhitespace)

/-- Strip leading and trailing whitespace from a character list. -/
def stripWs (s : List Char) : List Char :=
  ((s.dropWhile Char.isWhitespace).reverse.dropWhile Char.isWhitespace).reverse

/-- Whether Python `int(s)` succeeds: optional surrounding whitespace, an
optional sign, then a non-empty digit run (PEP-515 underscore grouping is
not modelled; no claim depends on it). -/
def pyIntParses (s : String) : Bool :=
  let t := stripWs s.data
  let d := match t with
    | '+' :: r => r
    | '-' :: r => r
    | r => r
  !d.isEmpty && d.all Char.isDigit

/-- `AddInstanceDialog.validate_and_accept` (lines 594-633): name,
fingerprint and user-data-dir must be non-blank, the two numeric fields
must parse as ints, and the selected version must be available
(`versionAvailable` folds `has_version` together with the optional
on-demand download offered on lines 614-632).  There is no check against
the names of existing instances. -/
def validate_and_accept (versionAvailable : String → Bool) (d : DialogData) : Bool :=
  nonBlank d.name && nonBlank d.fingerprint && nonBlank d.user_data_dir &&
  pyIntParses d.hardware_concurrency_text && pyIntParses d.device_memory_text &&
  versionAvailable d.chromium_version

/-- `ChromiumManager.add_instance` (lines 1158-1184): when the dialog is
accepted, `get_instance_data()` is appended to `config['instances']`
verbatim. -/
def add_instance (versionAvailable : String → Bool)
    (instances : List DialogData) (d : DialogData) : List DialogData :=
  if validate_and_accept versionAvailable d then instances ++ [d] else instances

def instA : DialogData :=
  { name := "Instance 1", fingerprint := "1000",
    user_data_dir := "/tmp/chromium/default001", timezone := "Asia/Shanghai",
    proxy_server := "", chromium_version := "v10",
    hardware_concurrency_text := "12", device_memory_text := "8" }

def instB : DialogData :=
  { instA with fingerprint := "1001", user_data_dir := "/tmp/chromium/default002" }

/-- Counterexample to C9 as stated: adding an instance whose name equals
an existing instance's name is neither rejected nor renamed — after the
add the registry's names are no longer pairwise distinct. -/
theorem add_instance_duplicate_counterexample :
    ¬ (((add_instance (fun _ => true) [instA] instB).map DialogData.name).Nodup) := by
  decide

/-- C9 amended: add does not enforce name uniqueness.  A validated
instance is appended unchanged — even when its name duplicates an existing
one — and a failed validation leaves the registry unchanged; validation
checks only non-blankness of name/fingerprint/user-data-dir, the two
numeric fields, and version availability, never the existing names. -/
theorem add_instance_appends_amended (versionAvailable : String → Bool)
    (instances : List DialogData) (d : DialogData) :
    (validate_and_accept versionAvailable d = true →
      add_instance versionAvailable instances d = instances ++ [d]) ∧
    (validate_and_accept versionAvailable d = false →
      add_instance versionAvailable instances d = instances) := by
  constructor
  · intro h
    simp [add_instance, h]
  · intro h
    simp [add_instance, h]

def blankNameInst : DialogData := { instA with name := "   " }

/-- Witness for the amended C9: the duplicate-named `instB` passes
validation and is appended after `instA`; a blank name fails validation
and leaves the registry unchanged. -/
theorem add_instance_appends_amended_witness :
    add_instance (fun _ => true) [instA] instB = [instA, instB] ∧
    add_instance (fun _ => true) [instA] blankNameInst = [instA] := by
  have h1 := add_instance_appends_amended (fun _ => true) [instA] instB
  have h2 := add_instance_appends_amended (fun _ => true) [instA] blankNameInst
  exact ⟨h1.1 (by decide), h2.2 (by decide)⟩

/-! ## Version catalogue: `ChromiumManager.has_version`
(src/chromium_manager.py lines 1565-1596) and
`ChromiumManager.update_version_config` (lines 1551-1563).

The filesystem is a finite table from paths (component lists, mirroring
`os.path.join`) to modification times; a path exists when it is in the
table. -/

/-- `os.path.exists`. -/
def pathExists (fs : List (List String × Nat)) (p : List String) : Bool :=
  (fs.lookup p).isSome

/-- `os.path.getmtime(path) if os.path.exists(path) else 0` (line 1560). -/
def getmtime (fs : List (List String × Nat)) (p : List String) : Nat :=
  (fs.lookup p).getD 0

/-- Python dict assignment `m[k] = v`: replace in place when the key
exists, append otherwise. -/
def dictInsert (m : List (String × VersionRecord)) (k : String) (v : VersionRecord) :
    List (String × VersionRecord) :=
  if (m.lookup k).isSome then m.map (fun kv => if kv.1 == k then (k, v) else kv)
  else m ++ [(k, v)]

/-- `ChromiumManager.update_version_config` (lines 1551-1563): store a
fresh VersionRecord for the version and rewrite the whole persisted
document (`save_config`). -/
def update_version_config (fs : List (List String × Nat))
    (versions : List (String × VersionRecord)) (version : String)
    (path : List String) : List (String × VersionRecord) :=
  dictInsert versions version
    { path := path, vtype := "downloaded", description := "下载版本 " ++ version,
      last_updated := getmtime fs path }

/-- The platform-specific candidate executable paths under the version
directory (lines 1578-1588). -/
def candidateExePaths (is_windows : Bool) (version_dir : List String) :
    List (List String) :=
  if is_windows then
    [version_dir ++ ["chrome.exe"], version_dir ++ ["Chromium", "chrome.exe"],
     version_dir ++ ["chrome-win", "chrome.exe"]]
  else
    [version_dir ++ ["Chromium.app", "Contents", "MacOS", "Chromium"],
     version_dir ++ ["Chromium", "Contents", "MacOS", "Chromium"]]

/-- The first check of `has_version` (lines 1568-1570): the persisted
record exists and its path is present on disk (`os.path.exists('')` is
false, so path truthiness folds into existence). -/
def goodRecord (fs : List (List String × Nat))
    (versions : List (String × VersionRecord)) (version : String) : Bool :=
  match versions.lookup version with
  | some r => pathExists fs r.path
  | none => false

/-- Result of `has_version`: the boolean answer, the `versions` mapping of
`self.config` afterwards, and whether `save_config` rewrote the persisted
document. -/
structure HasVersionResult where
  found : Bool
  versions : List (String × VersionRecord)
  savedToDisk : Bool
deriving DecidableEq

/-- `ChromiumManager.has_version` (lines 1565-1596): a valid persisted
record answers true with no mutation; a missing version directory answers
false; otherwise the candidate scan either finds an executable — calling
`update_version_config`, which saves the whole document — or answers
false with no mutation. -/
def has_version (is_windows : Bool) (fs : List (List String × Nat))
    (platform_dir : List String) (versions : List (String × VersionRecord))
    (version : String) : HasVersionResult :=
  if goodRecord fs versions version then ⟨true, versions, false⟩
  else if !(pathExists fs (platform_dir ++ [version])) then ⟨false, versions, false⟩
  else
    match (candidateExePaths is_windows (platform_dir ++ [version])).find?
        (fun q => pathExists fs q) with
    | some p => ⟨true, update_version_config fs versions version p, true⟩
    | none => ⟨false, versions, false⟩

/-- C10: `has_version` saves the persisted document exactly when it
answers true without a valid persisted record (i.e. it resolved the
executable via the on-disk candidate scan), in which case the new
`versions` mapping is `update_version_config` applied to the found
candidate; whenever it does not save — in particular when it answers
false, or when the existing record's path is valid — the versions mapping
is unchanged. -/
theorem has_version_side_effects (is_windows : Bool) (fs : List (List String × Nat))
    (platform_dir : List String) (versions : List (String × VersionRecord))
    (version : String) :
    ((has_version is_windows fs platform_dir versions version).savedToDisk =
      ((has_version is_windows fs platform_dir versions version).found &&
        !(goodRecord fs versions version))) ∧
    ((has_version is_windows fs platform_dir versions version).savedToDisk = false →
      (has_version is_windows fs platform_dir versions version).versions = versions) ∧
    ((has_version is_windows fs platform_dir versions version).savedToDisk = true →
      ∃ p, pathExists fs p = true ∧
        (candidateExePaths is_windows (platform_dir ++ [version])).find?
          (fun q => pathExists fs q) = some p ∧
        (has_version is_windows fs platform_dir versions version).versions =
          update_version_config fs versions version p) := by
  by_cases hg : goodRecord fs versions version = true
  · simp [has_version, hg]
  · rw [Bool.not_eq_true] at hg
    by_cases hd : pathExists fs (platform_dir ++ [version]) = true
    · cases hfind : (candidateExePaths is_windows (platform_dir ++ [version])).find?
          (fun q => pathExists fs q) with
      | none => simp [has_version, hg, hd, hfind]
      | some p =>
        have hp : pathExists fs p = true := List.find?_some hfind
        have hv : has_version is_windows fs platform_dir versions version =
            ⟨true, update_version_config fs versions version p, true⟩ := by
          simp [has_version, hg, hd, hfind]
        rw [hv]
        exact ⟨by simp [hg], fun hc => by simp at hc,
          fun _ => ⟨p, hp, rfl, rfl⟩⟩
    · rw [Bool.not_eq_true] at hd
      simp [has_version, hg, hd]

def fs10 : List (List String × Nat) :=
  [(["App", "win_x64", "v1"], 100), (["App", "win_x64", "v1", "chrome.exe"], 200)]

/-- Witness for C10 on a concrete filesystem: with no persisted record and
`chrome.exe` present under the version directory, `has_version` resolves
via the scan, writes the new record and rewrites the document. -/
theorem has_version_side_effects_witness :
    (has_version true fs10 ["App", "win_x64"] [] "v1").savedToDisk = true ∧
    ∃ p, pathExists fs10 p = true ∧
      (candidateExePaths true (["App", "win_x64"] ++ ["v1"])).find?
        (fun q => pathExists fs10 q) = some p ∧
      (has_version true fs10 ["App", "win_x64"] [] "v1").versions =
        update_version_config fs10 [] "v1" p := by
  have h := has_version_side_effects true fs10 ["App", "win_x64"] [] "v1"
  exact ⟨by decide, h.2.2 (by decide)⟩
